import Mathlib

/-!
Verification development for QuickSticky (Context Buddy), a browser
extension that attaches free-text notes to the context a user is viewing.

The embedding below translates the two source files:

* `background.js` — the content-script context resolver: `detectContext`
  per-application extraction, `observeUrlChanges` navigation triggers, and
  `waitForContextAndUpdate` / `checkAndUpdate`, the timer-driven
  stabilization loop (2000 ms settle delay, then polls every 200 ms, at
  most 25 attempts).
* `sidebar.js` — the note UI: the `CONTEXT_UPDATE` message handler,
  `reloadExtension`, the storage-backed note operations (`handleAddNote`,
  `handleDeleteNote`, `loadNotes`), and the related-notes query
  (`findRelatedNotes`, `isSimilarTitle`, `renderRelatedNotes`).

Machine conventions: timestamps and times are `Nat` (milliseconds);
`chrome.storage.local` is an association list in JS-object key-insertion
order; the fallibility of `chrome.storage.local.set` is surfaced as an
explicit `writeOk : Bool` parameter (the JS callback runs in either case
and the code never inspects `chrome.runtime.lastError`).
-/

/-- A detected context, as built by the `detect*Context` functions in
`background.js`.  App-specific identity fields (sender, channel,
participants, threadId) are informative only and never inspected by the
logic the claims concern, so they are omitted here.  `isLoading` defaults
to `false`; only the loading placeholder in `waitForContextAndUpdate`
sets it. -/
structure Context where
  app : String
  title : String
  url : String
  key : String
  isLoading : Bool := false
deriving DecidableEq

/-- A stored note, as built in `handleAddNote` (`sidebar.js`):
trimmed text, `Date.now()` timestamp, and the full context snapshot. -/
structure Note where
  text : String
  timestamp : Nat
  context : Context
deriving DecidableEq

/-- The persistent `chrome.storage.local` contents relevant to notes:
an association list from context key to note bucket, in JS-object
key-insertion order. -/
abbrev Store := List (String × List Note)

/-- Reading `result[key] || []` after `chrome.storage.local.get([key])`. -/
def storeGet : Store → String → List Note
  | [], _ => []
  | p :: t, k => if p.1 = k then p.2 else storeGet t k

/-- Writing `chrome.storage.local.set({ [key]: notes })`: an existing key
is updated in place (JS objects keep insertion order), a new key is
appended at the end. -/
def storeSet : Store → String → List Note → Store
  | [], k, v => [(k, v)]
  | p :: t, k, v => if p.1 = k then (k, v) :: t else p :: storeSet t k v

theorem storeGet_storeSet (s : Store) (k : String) (v : List Note) :
    storeGet (storeSet s k v) k = v := by
  induction s with
  | nil => simp [storeGet, storeSet]
  | cons p t ih =>
    by_cases h : p.1 = k
    · simp [storeGet, storeSet, h]
    · simp [storeGet, storeSet, h, ih]

/-- Whether `pat` occurs at the start of `l` (character-list view). -/
def leadMatch : List Char → List Char → Bool
  | [], _ => true
  | _ :: _, [] => false
  | a :: as, b :: bs => a == b && leadMatch as bs

/-- Whether `pat` occurs anywhere in `l` (character-list view). -/
def subMatch (pat : List Char) : List Char → Bool
  | [] => leadMatch pat []
  | b :: bs => leadMatch pat (b :: bs) || subMatch pat bs

/-- JavaScript `hay.includes(needle)` on strings. -/
def strIncludes (hay needle : String) : Bool :=
  subMatch needle.data hay.data

/-- JavaScript `toLowerCase()`.  The titles this code compares are
ASCII, for which per-character lowering coincides with JS. -/
def strLower (s : String) : String :=
  String.mk (s.data.map Char.toLower)

/-- Splitting a character list at every separator character, keeping
empty fields (the shape of JS `String.prototype.split`). -/
def splitChars (p : Char → Bool) : List Char → List (List Char)
  | [] => [[]]
  | c :: cs =>
    if p c then [] :: splitChars p cs
    else
      match splitChars p cs with
      | [] => [[c]]
      | t :: ts => (c :: t) :: ts

/-- JS `split(/\s+/)` as used by `isSimilarTitle`.  Splitting at every
whitespace character produces extra empty fields compared to splitting
on runs, but the `length > 2` word filter applied immediately afterwards
removes them, so the filtered word lists agree with JS. -/
def strSplitWs (s : String) : List String :=
  (splitChars Char.isWhitespace s.data).map String.mk

/-- JS `key.split(':')` as used on store keys. -/
def splitOnColon (s : String) : List String :=
  (splitChars (fun c => c == ':') s.data).map String.mk

/-- JS `key.includes(':')` (single-character needle). -/
def strContainsChar (s : String) (c : Char) : Bool :=
  s.data.contains c

/-- JS `String.prototype.trim`: strip whitespace from both ends. -/
def jsTrim (s : String) : String :=
  String.mk
    (((s.data.dropWhile Char.isWhitespace).reverse.dropWhile
      Char.isWhitespace).reverse)

/-- The `hasRealTitle` acceptance test inside `checkAndUpdate`
(`background.js`): the extracted title is truthy, not the bare site name
`"YouTube"`, not the loading placeholder `"Loading..."`, non-empty, and
not a raw URL fragment containing `"watch?v="`. -/
def hasRealTitle (t : String) : Bool :=
  (t != "") && (t != "YouTube") && (t != "Loading...") &&
    (decide (0 < t.length)) && !(strIncludes t "watch?v=")

/-- The two exact homepage URLs special-cased in `checkAndUpdate`. -/
def isHomepageUrl (url : String) : Prop :=
  url = "https://www.youtube.com/" ∨ url = "https://www.youtube.com"

instance (url : String) : Decidable (isHomepageUrl url) := by
  unfold isHomepageUrl; infer_instance

/-- One stabilization poll chain of `waitForContextAndUpdate`
(`background.js`, the `checkAndUpdate` closure).  `doc t` is what
`detectContext()` returns at absolute time `t`; `url` is the location
captured when the cycle was triggered.  The first poll runs at the time
passed in (trigger time + 2000 ms); each retry is 200 ms later; the
attempt counter is 1-based with `maxAttempts = 25`.  The `fuel` argument
only bounds the recursion; callers pass `25` with `attempt = 1` so the
`attempt < 25` guards in the body are the ones that fire, exactly as in
the source.  The result is the (time, context) passed to
`updateContext`, or `none` when the chain gives up without a context. -/
def runPolls (doc : Nat → Option Context) (url : String) :
    Nat → Nat → Nat → Option (Nat × Context)
  | 0, _, _ => none
  | fuel + 1, time, attempt =>
    match doc time with
    | none =>
      if attempt < 25 then runPolls doc url fuel (time + 200) (attempt + 1)
      else none
    | some ctx =>
      if isHomepageUrl url then some (time, ctx)
      else if ctx.app = "youtube" ∧ strIncludes url "watch?v=" = true then
        if hasRealTitle ctx.title = true ∨ 25 ≤ attempt then some (time, ctx)
        else runPolls doc url fuel (time + 200) (attempt + 1)
      else some (time, ctx)

/-- A full stabilization cycle started by a navigation trigger at time
`trig`: `waitForContextAndUpdate` waits 2000 ms, then starts the poll
chain.  Nothing cancels the chain once started: the source keeps no
generation counter and never clears these timers. -/
def cycleCommit (doc : Nat → Option Context) (url : String) (trig : Nat) :
    Option (Nat × Context) :=
  runPolls doc url 25 (trig + 2000) 1

/-- The commits of several independently triggered cycles: each
navigation trigger in `observeUrlChanges` calls
`waitForContextAndUpdate`, which spawns its own timer chain; the chains
never interact. -/
def systemCommits (doc : Nat → Option Context)
    (triggers : List (Nat × String)) : List (Option (Nat × Context)) :=
  triggers.map (fun p => cycleCommit doc p.2 p.1)

/-- The loading placeholder context hard-coded in
`waitForContextAndUpdate` (`background.js` lines 663-677); only the
`url` field varies with the page. -/
def loadingPlaceholder (url : String) : Context :=
  { app := "youtube", title := "Loading...", url := url,
    key := "youtube:loading", isLoading := true }

/-- The immediate loading-state emission at the top of
`waitForContextAndUpdate`: the placeholder is posted only when the
sidebar is open. -/
def emitLoading (sidebarOpen : Bool) (url : String) : Option Context :=
  if sidebarOpen then some (loadingPlaceholder url) else none

/-- The stop-word list in `isSimilarTitle` (`sidebar.js`). -/
def commonWords : List String :=
  ["the", "a", "an", "and", "or", "but", "in", "on", "at", "to", "for"]

/-- Tokenization inside `isSimilarTitle`: split on whitespace, keep words
longer than 2 characters that are not stop words.  (JS `split(/\s+/)`
collapses whitespace runs; splitting at every whitespace character
instead produces extra empty tokens, which the `length > 2` filter
removes, so the filtered lists coincide.) -/
def titleWords (t : String) : List String :=
  (strSplitWs t).filter
    (fun w => decide (2 < w.length) && !(commonWords.contains w))

/-- The `isSimilarTitle` predicate (`sidebar.js` lines 493-508), applied
by `findRelatedNotes` to already-lower-cased titles: falsy titles and
exactly equal titles are rejected, otherwise the pair is similar when
the filtered token lists share at least one word. -/
def isSimilarTitle (title1 title2 : String) : Bool :=
  if title1 = "" ∨ title2 = "" then false
  else if title1 = title2 then false
  else
    0 < ((titleWords title1).filter
      (fun w => (titleWords title2).contains w)).length

/-- A related-note record as pushed by `findRelatedNotes`: the spread of
the stored note plus its origin bucket key and position. -/
structure RNote where
  text : String
  timestamp : Nat
  context : Context
  contextKey : String
  index : Nat
deriving DecidableEq

/-- The records `findRelatedNotes` builds from one related bucket. -/
def relNotesOf (k : String) (notes : List Note) : List RNote :=
  notes.enum.map (fun p =>
    { text := p.2.text, timestamp := p.2.timestamp, context := p.2.context,
      contextKey := k, index := p.1 })

/-- The bucket filter inside `findRelatedNotes`: skip the current key,
skip keys without a colon, skip empty buckets, then test similarity of
the lower-cased current title against the lower-cased title portion of
the key (`key.split(':')[1]`, the empty string when absent). -/
def relatedBucketPred (currentKey currentTitleLower : String)
    (p : String × List Note) : Bool :=
  (p.1 != currentKey) && strContainsChar p.1 ':' && (decide (0 < p.2.length)) &&
    isSimilarTitle currentTitleLower (strLower ((splitOnColon p.1).getD 1 ""))

/-- `findRelatedNotes` (`sidebar.js` lines 448-488): scan every stored
bucket in key order, collect every note of every bucket passing
`relatedBucketPred`.  This is the global `relatedNotes` array; the
display cap is applied later by `renderRelatedNotes`. -/
def findRelatedNotes (store : Store) (ctx : Context) : List RNote :=
  ((store.filter (relatedBucketPred ctx.key (strLower ctx.title))).map
    (fun p => relNotesOf p.1 p.2)).flatten

/-- Ordering used by `renderRelatedNotes`'s comparator
`(a, b) => b.timestamp - a.timestamp`: newest first. -/
def tsGE (a b : RNote) : Prop := b.timestamp ≤ a.timestamp

instance : DecidableRel tsGE := fun a b =>
  inferInstanceAs (Decidable (b.timestamp ≤ a.timestamp))

instance : IsTotal RNote tsGE :=
  ⟨fun a b => Nat.le_total b.timestamp a.timestamp⟩

instance : IsTrans RNote tsGE :=
  ⟨fun _ _ _ hab hbc => Nat.le_trans hbc hab⟩

/-- `renderRelatedNotes` (`sidebar.js` lines 513-534): sort the
collected related notes newest-first and show the first 5.  The source
uses `Array.prototype.sort`; any correct sort yields a permutation that
is pairwise `tsGE`-sorted, which is all the claims rely on. -/
def renderRelatedNotes (l : List RNote) : List RNote :=
  (List.insertionSort tsGE l).take 5

/-- The sidebar's mutable state (`sidebar.js` globals plus the visible
widgets the claims mention): the displayed context, the note textarea
contents, the cached `currentNotes` bucket, the cached `relatedNotes`
array, and whether the loading placeholder view is shown. -/
structure SidebarState where
  currentContext : Option Context
  noteInput : String
  currentNotes : List Note
  relatedNotes : List RNote
  displayedLoading : Bool
deriving DecidableEq

/-- The state produced by `reloadExtension` (`sidebar.js` lines
102-130): textarea cleared, notes re-fetched for the new key
(`loadNotes`), related notes recomputed (`findRelatedNotes`), loading
indicator hidden again once done. -/
def reloadedState (store : Store) (ctx : Context) : SidebarState :=
  { currentContext := some ctx
    noteInput := ""
    currentNotes := storeGet store ctx.key
    relatedNotes := findRelatedNotes store ctx
    displayedLoading := false }

/-- The `CONTEXT_UPDATE` branch of `setupMessageListener` (`sidebar.js`
lines 60-97).  A loading placeholder only swaps the displayed context
and shows the loading view (`showLoadingState` clears the rendered list
but touches neither the textarea nor the cached arrays).  Otherwise the
source computes `urlChanged = previousUrl && previousUrl !== url` and
fully reloads when `urlChanged || !previousUrl || previousTitle ===
'Loading...'`; the remaining case only refreshes the display
(`updateContextDisplay`). -/
def receiveContextUpdate (store : Store) (st : SidebarState)
    (ctx : Context) : SidebarState :=
  if ctx.isLoading then
    { st with currentContext := some ctx, displayedLoading := true }
  else
    match st.currentContext with
    | none => reloadedState store ctx
    | some prev =>
      if (prev.url ≠ "" ∧ prev.url ≠ ctx.url) ∨ prev.url = "" ∨
          prev.title = "Loading..." then
        reloadedState store ctx
      else
        { st with currentContext := some ctx }

/-- `handleAddNote` (`sidebar.js` lines 370-407).  The trimmed textarea
text and the current context gate the operation; the note is pushed onto
the cached `currentNotes` *before* `chrome.storage.local.set` is issued.
`writeOk` tells whether the persistent write succeeds; the source never
inspects `chrome.runtime.lastError`, so the callback (clear textarea,
re-render, recompute related notes) runs identically either way — only
the persisted store differs. -/
def handleAddNote (writeOk : Bool) (store : Store) (st : SidebarState)
    (now : Nat) : Store × SidebarState :=
  match st.currentContext with
  | none => (store, st)
  | some ctx =>
    if jsTrim st.noteInput = "" then (store, st)
    else
      let note : Note :=
        { text := jsTrim st.noteInput, timestamp := now, context := ctx }
      let newNotes := st.currentNotes ++ [note]
      if writeOk then
        let store' := storeSet store ctx.key newNotes
        (store', { st with
                   currentNotes := newNotes, noteInput := "",
                   relatedNotes := findRelatedNotes store' ctx })
      else
        (store, { st with
                  currentNotes := newNotes, noteInput := "",
                  relatedNotes := findRelatedNotes store ctx })

/-- The effective start index of JavaScript `arr.splice(i, 1)`: a
negative `i` is taken as `length + i` clamped to 0, a start beyond the
end is clamped to `length`. -/
def spliceStart (len : Nat) (i : Int) : Nat :=
  (if i < 0 then max ((len : Int) + i) 0 else min i (len : Int)).toNat

/-- JavaScript `arr.splice(i, 1)` on a note bucket: remove the (at most
one) element at the effective start index. -/
def spliceRemove (l : List Note) (i : Int) : List Note :=
  l.take (spliceStart l.length i) ++ l.drop (spliceStart l.length i + 1)

/-- The current-context branch of `handleDeleteNote` (`sidebar.js` lines
412-443): splice the cached `currentNotes` in place, then persist the
spliced bucket.  As in `handleAddNote`, a failed write (`writeOk =
false`) leaves the persistent store alone but the cache has already been
mutated and no error is surfaced. -/
def handleDeleteNoteCurrent (writeOk : Bool) (store : Store)
    (st : SidebarState) (i : Int) : Store × SidebarState :=
  match st.currentContext with
  | none => (store, st)
  | some ctx =>
    let newNotes := spliceRemove st.currentNotes i
    if writeOk then
      (storeSet store ctx.key newNotes, { st with currentNotes := newNotes })
    else
      (store, { st with currentNotes := newNotes })

/-- The other-context branch of `handleDeleteNote` (used for related and
all-view notes): read the bucket, splice, write it back. -/
def deleteAt (store : Store) (k : String) (i : Int) : Store :=
  storeSet store k (spliceRemove (storeGet store k) i)

/-- Claim C10: the loading placeholder emitted on entering the detecting
state is the same fixed object for every navigation trigger — app
`"youtube"`, title `"Loading..."`, key `"youtube:loading"`,
`isLoading = true` — regardless of the host page's URL (and hence of the
host application); only the `url` field tracks the page. -/
theorem loading_placeholder_fixed_shape (sidebarOpen : Bool) (url : String)
    (c : Context) (h : emitLoading sidebarOpen url = some c) :
    c.app = "youtube" ∧ c.title = "Loading..." ∧
    c.key = "youtube:loading" ∧ c.isLoading = true := by
  cases sidebarOpen with
  | false => simp [emitLoading] at h
  | true =>
    simp only [emitLoading, if_pos] at h
    cases h
    simp [loadingPlaceholder]

/-- Witness for `loading_placeholder_fixed_shape` at a concrete URL. -/
theorem loading_placeholder_fixed_shape_witness :
    (loadingPlaceholder "https://mail.google.com/mail/u/0/").app = "youtube" ∧
    (loadingPlaceholder "https://mail.google.com/mail/u/0/").title = "Loading..." ∧
    (loadingPlaceholder "https://mail.google.com/mail/u/0/").key = "youtube:loading" ∧
    (loadingPlaceholder "https://mail.google.com/mail/u/0/").isLoading = true :=
  loading_placeholder_fixed_shape true "https://mail.google.com/mail/u/0/"
    (loadingPlaceholder "https://mail.google.com/mail/u/0/") rfl

/-- Sidebar state in which the loading placeholder is the current
context and the user has typed a note. -/
def c3St : SidebarState :=
  { currentContext := some (loadingPlaceholder "https://www.youtube.com/watch?v=x")
    noteInput := "remember this"
    currentNotes := []
    relatedNotes := []
    displayedLoading := true }

/-- Claim C3 (code bug): `handleAddNote` never checks `isLoading`, so
submitting the note form while the loading placeholder is the current
context persists a note in the store under the placeholder key
`"youtube:loading"` — contradicting the invariant that a loading
context's key is never a store key target. -/
theorem loading_key_note_persisted :
    (c3St.currentContext.map Context.isLoading) = some true ∧
    storeGet (handleAddNote true [] c3St 5).1 "youtube:loading"
      = [{ text := "remember this", timestamp := 5,
           context := loadingPlaceholder "https://www.youtube.com/watch?v=x" }] := by
  decide

/-- Previously displayed context for the C1 scenario. -/
def c1Prev : Context :=
  { app := "youtube", title := "Old Video",
    url := "https://www.youtube.com/watch?v=a", key := "youtube:Old Video" }

/-- A context with a different key but the same URL (a title drift on
the same watch page). -/
def c1New : Context :=
  { app := "youtube", title := "New Video",
    url := "https://www.youtube.com/watch?v=a", key := "youtube:New Video" }

/-- Sidebar state displaying `c1Prev` with a draft in the textarea. -/
def c1St : SidebarState :=
  { currentContext := some c1Prev
    noteInput := "draft in progress"
    currentNotes := []
    relatedNotes := []
    displayedLoading := false }

/-- Claim C1 counterexample: a `CONTEXT_UPDATE` whose key differs from
the previously displayed key but whose URL is unchanged does NOT reset
the visible state — the handler keys its decision on the URL, so the
in-progress input survives even though the context key changed. -/
theorem key_change_same_url_preserves_input :
    c1Prev.key ≠ c1New.key ∧ c1New.isLoading = false ∧
    (receiveContextUpdate [] c1St c1New).noteInput = "draft in progress" ∧
    (receiveContextUpdate [] c1St c1New).currentNotes = c1St.currentNotes := by
  decide

/-- Claim C1 (amended): the `CONTEXT_UPDATE` handler discriminates on
the URL, not the key: with a previous context whose URL is non-empty,
the update is display-only (input, cached notes and related notes all
preserved) exactly when the URL is unchanged and the previous title was
not `"Loading..."`; it fully resets (clears input, reloads notes,
recomputes related notes) when the URL changed, the previous URL was
empty, or the previous title was the loading placeholder title. -/
theorem context_update_resets_on_url_change (store : Store)
    (st : SidebarState) (ctx prev : Context) (hload : ctx.isLoading = false)
    (hprev : st.currentContext = some prev) :
    ((prev.url = ctx.url ∧ prev.url ≠ "" ∧ prev.title ≠ "Loading...") →
      receiveContextUpdate store st ctx
        = { st with currentContext := some ctx }) ∧
    ((prev.url ≠ ctx.url ∨ prev.url = "" ∨ prev.title = "Loading...") →
      receiveContextUpdate store st ctx = reloadedState store ctx) := by
  constructor
  · rintro ⟨h1, h2, h3⟩
    have hc : ¬((prev.url ≠ "" ∧ prev.url ≠ ctx.url) ∨ prev.url = "" ∨
        prev.title = "Loading...") := by
      push_neg
      exact ⟨fun _ => by rw [h1], h2, h3⟩
    simp [receiveContextUpdate, hload, hprev, hc]
  · intro h
    have hc : (prev.url ≠ "" ∧ prev.url ≠ ctx.url) ∨ prev.url = "" ∨
        prev.title = "Loading..." := by
      rcases h with h | h | h
      · by_cases he : prev.url = ""
        · exact Or.inr (Or.inl he)
        · exact Or.inl ⟨he, h⟩
      · exact Or.inr (Or.inl h)
      · exact Or.inr (Or.inr h)
    simp [receiveContextUpdate, hload, hprev, hc]

/-- Witness for `context_update_resets_on_url_change`: a same-key
update with a changed URL triggers the full reload. -/
theorem context_update_resets_on_url_change_witness :
    receiveContextUpdate [] c1St
        { app := "youtube", title := "Old Video",
          url := "https://www.youtube.com/watch?v=b",
          key := "youtube:Old Video" }
      = reloadedState []
        { app := "youtube", title := "Old Video",
          url := "https://www.youtube.com/watch?v=b",
          key := "youtube:Old Video" } :=
  (context_update_resets_on_url_change [] c1St
    { app := "youtube", title := "Old Video",
      url := "https://www.youtube.com/watch?v=b", key := "youtube:Old Video" }
    c1Prev rfl rfl).2 (Or.inl (by decide))

/-- Context used in the failed-write scenario. -/
def c4Ctx : Context :=
  { app := "docs", title := "Q3 Plan", url := "https://docs.google.com/d/1",
    key := "doc:Q3 Plan" }

/-- Sidebar state about to append a note to `c4Ctx`'s bucket. -/
def c4St : SidebarState :=
  { currentContext := some c4Ctx
    noteInput := "first note"
    currentNotes := []
    relatedNotes := []
    displayedLoading := false }

/-- Claim C4 counterexample: when the persistent write fails, the store
is indeed unchanged, but the cached in-memory bucket does NOT equal its
pre-operation contents — the note was pushed before the write was
issued and nothing rolls it back. -/
theorem failed_write_reflected_in_cache :
    (handleAddNote false [] c4St 7).1 = [] ∧
    (handleAddNote false [] c4St 7).2.currentNotes ≠ c4St.currentNotes := by
  decide

/-- Claim C4 (amended): on a failed persistent write, neither append nor
delete surfaces anything to the caller (the source never inspects
`chrome.runtime.lastError`), and the cached bucket has already been
mutated before the write: after a failed append it equals the old cache
plus the new note, after a failed delete it equals the spliced list,
while the persistent store is unchanged. -/
theorem failed_write_mutates_cache_silently (store : Store)
    (st : SidebarState) (ctx : Context) (now : Nat) (i : Int)
    (hctx : st.currentContext = some ctx)
    (htext : jsTrim st.noteInput ≠ "") :
    (handleAddNote false store st now).1 = store ∧
    (handleAddNote false store st now).2.currentNotes
      = st.currentNotes ++
        [{ text := jsTrim st.noteInput, timestamp := now, context := ctx }] ∧
    (handleDeleteNoteCurrent false store st i).1 = store ∧
    (handleDeleteNoteCurrent false store st i).2.currentNotes
      = spliceRemove st.currentNotes i := by
  simp [handleAddNote, handleDeleteNoteCurrent, hctx, htext]

/-- Witness for `failed_write_mutates_cache_silently` on the concrete
failed-append scenario. -/
theorem failed_write_mutates_cache_silently_witness :
    (handleAddNote false [] c4St 7).1 = ([] : Store) ∧
    (handleAddNote false [] c4St 7).2.currentNotes
      = c4St.currentNotes ++
        [{ text := jsTrim c4St.noteInput, timestamp := 7, context := c4Ctx }] ∧
    (handleDeleteNoteCurrent false [] c4St 0).1 = ([] : Store) ∧
    (handleDeleteNoteCurrent false [] c4St 0).2.currentNotes
      = spliceRemove c4St.currentNotes 0 :=
  failed_write_mutates_cache_silently [] c4St c4Ctx 7 0 rfl (by decide)

/-- A one-note bucket for the out-of-range-delete scenario. -/
def c8Note : Note :=
  { text := "only note", timestamp := 1,
    context := { app := "docs", title := "Plan", url := "u", key := "doc:Plan" } }

/-- Store holding exactly that bucket. -/
def c8Store : Store := [("doc:Plan", [c8Note])]

/-- Claim C8 counterexample: index `-1` is out of `[0, length)` for the
one-element bucket, yet `deleteAt` is not a no-op there — JS
`splice(-1, 1)` counts from the end and removes the last note. -/
theorem delete_negative_index_removes_last :
    ¬(0 ≤ (-1 : Int) ∧ (-1 : Int) < (storeGet c8Store "doc:Plan").length) ∧
    storeGet c8Store "doc:Plan" = [c8Note] ∧
    storeGet (deleteAt c8Store "doc:Plan" (-1)) "doc:Plan" = [] := by
  decide

/-- Claim C8 (amended): `deleteAt(key, index)` is a no-op (bucket
unchanged, no exception) for every index at or beyond the bucket
length; a negative index, however, is interpreted by `splice` as
`length + index` clamped to 0, so `-1` on a non-empty bucket removes the
last note. -/
theorem delete_out_of_range_high_is_noop (store : Store) (k : String) :
    (∀ i : Int, ((storeGet store k).length : Int) ≤ i →
      storeGet (deleteAt store k i) k = storeGet store k) ∧
    (storeGet store k ≠ [] →
      storeGet (deleteAt store k (-1)) k = (storeGet store k).dropLast) := by
  constructor
  · intro i hi
    unfold deleteAt
    rw [storeGet_storeSet]
    unfold spliceRemove spliceStart
    set l := storeGet store k with hl
    have h0 : ¬ i < 0 := by
      have : (0 : Int) ≤ (l.length : Int) := Int.ofNat_nonneg _
      omega
    rw [if_neg h0, min_eq_right hi]
    simp only [Int.toNat_natCast]
    rw [List.take_length, List.drop_eq_nil_of_le (by omega)]
    exact List.append_nil l
  · intro hne
    unfold deleteAt
    rw [storeGet_storeSet]
    unfold spliceRemove spliceStart
    set l := storeGet store k with hl
    have hlen : 1 ≤ l.length := List.length_pos.mpr hne
    have hneg : (-1 : Int) < 0 := by omega
    rw [if_pos hneg]
    have hmax : (max ((l.length : Int) + (-1)) 0).toNat = l.length - 1 := by
      omega
    rw [hmax]
    have hdrop : l.drop (l.length - 1 + 1) = [] := by
      apply List.drop_eq_nil_of_le
      omega
    rw [hdrop, List.append_nil, List.dropLast_eq_take]

/-- Witness for `delete_out_of_range_high_is_noop`: deleting index 5
from the one-note bucket leaves it unchanged, and deleting index -1
drops its last (only) note. -/
theorem delete_out_of_range_high_is_noop_witness :
    storeGet (deleteAt c8Store "doc:Plan" 5) "doc:Plan"
        = storeGet c8Store "doc:Plan" ∧
    storeGet (deleteAt c8Store "doc:Plan" (-1)) "doc:Plan"
        = (storeGet c8Store "doc:Plan").dropLast :=
  ⟨(delete_out_of_range_high_is_noop c8Store "doc:Plan").1 5 (by decide),
   (delete_out_of_range_high_is_noop c8Store "doc:Plan").2 (by decide)⟩

/-- Claim C9: appending a note and then listing the bucket yields the
new note as the last element (full equality: text, timestamp and
context snapshot).  The cache-sync hypothesis states that the cached
`currentNotes` array is the bucket loaded for the current key, which is
what `loadNotes` established after the last reload. -/
theorem append_then_list_last (store : Store) (st : SidebarState)
    (ctx : Context) (now : Nat) (hctx : st.currentContext = some ctx)
    (hsync : st.currentNotes = storeGet store ctx.key)
    (htext : jsTrim st.noteInput ≠ "") :
    storeGet (handleAddNote true store st now).1 ctx.key
      = storeGet store ctx.key ++
        [{ text := jsTrim st.noteInput, timestamp := now, context := ctx }] ∧
    (storeGet (handleAddNote true store st now).1 ctx.key).getLast?
      = some { text := jsTrim st.noteInput, timestamp := now, context := ctx } := by
  constructor
  · simp [handleAddNote, hctx, htext, storeGet_storeSet, hsync]
  · simp [handleAddNote, hctx, htext, storeGet_storeSet]

/-- Witness for `append_then_list_last` at a concrete store and note. -/
theorem append_then_list_last_witness :
    storeGet (handleAddNote true [] c1St 42).1 c1Prev.key
      = storeGet [] c1Prev.key ++
        [{ text := jsTrim c1St.noteInput, timestamp := 42,
           context := c1Prev }] ∧
    (storeGet (handleAddNote true [] c1St 42).1 c1Prev.key).getLast?
      = some { text := jsTrim c1St.noteInput, timestamp := 42,
               context := c1Prev } :=
  append_then_list_last [] c1St c1Prev 42 rfl rfl (by decide)

/-- The overlap count in `isSimilarTitle` is positive exactly when the
two filtered word lists share a word. -/
theorem filter_contains_pos_iff (l1 l2 : List String) :
    0 < (l1.filter (fun w => l2.contains w)).length ↔ ∃ w ∈ l1, w ∈ l2 := by
  rw [List.length_pos, Ne, List.filter_eq_nil_iff]
  push_neg
  simp

/-- Claim C6: for any two titles, the relatedness predicate (applied by
`findRelatedNotes` to the lower-cased titles) holds iff the two filtered
token lists — lower-cased, whitespace-split, tokens of length at most 2
and stop words dropped — share at least one token AND the lower-cased
titles are not exactly equal; in particular the pair
`("Budget Review", "budget review")` is excluded by the exact-title
guard even though the raw titles differ only in case. -/
theorem similar_title_characterization :
    (∀ t1 t2 : String,
      isSimilarTitle (strLower t1) (strLower t2) = true ↔
        ((∃ w ∈ titleWords (strLower t1), w ∈ titleWords (strLower t2)) ∧
          strLower t1 ≠ strLower t2)) ∧
    isSimilarTitle (strLower "Budget Review") (strLower "budget review")
      = false := by
  constructor
  · intro t1 t2
    unfold isSimilarTitle
    by_cases h1 : strLower t1 = ""
    · rw [if_pos (Or.inl h1)]
      simp only [Bool.false_eq_true, false_iff]
      rintro ⟨⟨w, hw1, _⟩, _⟩
      rw [h1] at hw1
      have hnil : titleWords "" = [] := by decide
      rw [hnil] at hw1
      exact absurd hw1 (List.not_mem_nil w)
    · by_cases h2 : strLower t2 = ""
      · rw [if_pos (Or.inr h2)]
        simp only [Bool.false_eq_true, false_iff]
        rintro ⟨⟨w, _, hw2⟩, _⟩
        rw [h2] at hw2
        have hnil : titleWords "" = [] := by decide
        rw [hnil] at hw2
        exact absurd hw2 (List.not_mem_nil w)
      · rw [if_neg (by push_neg; exact ⟨h1, h2⟩)]
        by_cases heq : strLower t1 = strLower t2
        · rw [if_pos heq]
          simp [heq]
        · rw [if_neg heq]
          simp only [decide_eq_true_eq]
          rw [filter_contains_pos_iff]
          exact (and_iff_left heq).symm
  · decide

/-- Witness for `similar_title_characterization`: two titles sharing
the token `"plan"` are related. -/
theorem similar_title_characterization_witness :
    isSimilarTitle (strLower "Team Plan") (strLower "Plan Review") = true :=
  (similar_title_characterization.1 "Team Plan" "Plan Review").mpr
    ⟨⟨"plan", by decide, by decide⟩, by decide⟩

/-- Every record collected by `findRelatedNotes` carries an origin key
different from the query key (the `key === currentKey` skip). -/
theorem mem_findRelatedNotes_key {store : Store} {ctx : Context}
    {r : RNote} (h : r ∈ findRelatedNotes store ctx) :
    r.contextKey ≠ ctx.key := by
  simp only [findRelatedNotes, List.mem_flatten, List.mem_map,
    List.mem_filter] at h
  obtain ⟨l, ⟨p, ⟨hp, hpred⟩, rfl⟩, hr⟩ := h
  simp only [relNotesOf, List.mem_map] at hr
  obtain ⟨q, hq, rfl⟩ := hr
  simp only [relatedBucketPred, Bool.and_eq_true, bne_iff_ne] at hpred
  exact hpred.1.1.1

/-- Claim C7: the related notes actually surfaced — the collected
records, sorted newest-first and capped by `renderRelatedNotes` — never
include a note whose origin bucket key equals the query key, never
number more than 5, and are the most recent of the collected records:
any collected record left out has a timestamp no larger than every
surfaced one. -/
theorem related_notes_cap_and_no_self (store : Store) (ctx : Context) :
    (renderRelatedNotes (findRelatedNotes store ctx)).length ≤ 5 ∧
    (∀ r ∈ renderRelatedNotes (findRelatedNotes store ctx),
      r.contextKey ≠ ctx.key) ∧
    (∀ r ∈ renderRelatedNotes (findRelatedNotes store ctx),
      ∀ q ∈ findRelatedNotes store ctx,
        q ∉ renderRelatedNotes (findRelatedNotes store ctx) →
          q.timestamp ≤ r.timestamp) := by
  refine ⟨?_, ?_, ?_⟩
  · exact List.length_take_le 5 _
  · intro r hr
    have hr' : r ∈ findRelatedNotes store ctx := by
      have hmem := List.mem_of_mem_take hr
      exact (List.mem_insertionSort tsGE).mp hmem
    exact mem_findRelatedNotes_key hr'
  · intro r hr q hq hq5
    have hsort : List.Sorted tsGE
        (List.insertionSort tsGE (findRelatedNotes store ctx)) :=
      List.sorted_insertionSort tsGE _
    have hqs : q ∈ List.insertionSort tsGE (findRelatedNotes store ctx) :=
      (List.mem_insertionSort tsGE).mpr hq
    have hpair := List.pairwise_append.mp
      (by
        rw [List.take_append_drop 5
          (List.insertionSort tsGE (findRelatedNotes store ctx))]
        exact hsort)
    have hqd : q ∈ (List.insertionSort tsGE (findRelatedNotes store ctx)).drop 5 := by
      rcases List.mem_append.mp (by
        rw [List.take_append_drop 5
          (List.insertionSort tsGE (findRelatedNotes store ctx))]
        exact hqs) with hin | hin
      · exact absurd hin hq5
      · exact hin
    exact hpair.2.2 r hr q hqd

/-- Query context for the related-notes witness scenario. -/
def c7Ctx : Context :=
  { app := "docs", title := "Team Plan", url := "u", key := "doc:Team Plan" }

/-- A note in the related bucket with the given timestamp. -/
def c7Note (ts : Nat) : Note :=
  { text := "n", timestamp := ts, context := c7Ctx }

/-- A store holding six notes in one bucket whose key title shares the
token `"plan"` with the query title. -/
def c7Store : Store :=
  [("doc:Plan Review",
    [c7Note 1, c7Note 2, c7Note 3, c7Note 4, c7Note 5, c7Note 6])]

/-- The related-note record at the given timestamp and bucket index. -/
def c7R (ts i : Nat) : RNote :=
  { text := "n", timestamp := ts, context := c7Ctx,
    contextKey := "doc:Plan Review", index := i }

/-- Witness for `related_notes_cap_and_no_self`: with six collected
records, the one left out (timestamp 1) is no newer than the surfaced
record with timestamp 6. -/
theorem related_notes_cap_and_no_self_witness :
    (c7R 1 0).timestamp ≤ (c7R 6 5).timestamp :=
  (related_notes_cap_and_no_self c7Store c7Ctx).2.2 (c7R 6 5) (by decide)
    (c7R 1 0) (by decide) (by decide)

/-- The YouTube homepage URL. -/
def homeUrl : String := "https://www.youtube.com/"

/-- The fixed homepage context returned by `detectYouTubeContext` for
the exact site root. -/
def homeCtx : Context :=
  { app := "youtube", title := "Home Page", url := homeUrl,
    key := "youtube:Home Page" }

/-- A document whose extraction is the homepage context at all times. -/
def docHome : Nat → Option Context := fun _ => some homeCtx

/-- Claim C2 counterexample: a second trigger at 1000 ms arrives while
the first cycle (triggered at 0 ms) is still inside its 2000 ms settle
delay — mid-flight — yet the first cycle's timers do not no-op: both
cycles run to completion and both deliver a commit downstream (at
2000 ms and 3000 ms), because the source has no generation marker and
never cancels a pending chain. -/
theorem superseded_cycle_still_commits :
    (1000 : Nat) < 0 + 2000 ∧
    systemCommits docHome [(0, homeUrl), (1000, homeUrl)]
      = [some (2000, homeCtx), some (3000, homeCtx)] := by
  constructor
  · decide
  · decide

/-- Claim C2 (amended): a navigation trigger does not cancel an
in-flight cycle and no generation marker exists — a superseded cycle
still runs and may commit.  What does hold: every commit a cycle
delivers is the live `detectContext()` extraction at the moment of the
commit (never earlier than 2000 ms past that cycle's own trigger), so
once the document reflects the second navigation, a stale cycle's
commit carries the current context rather than the first cycle's
original target. -/
theorem cycle_commit_reads_live_document (doc : Nat → Option Context)
    (url : String) (trig t : Nat) (c : Context)
    (h : cycleCommit doc url trig = some (t, c)) :
    doc t = some c ∧ trig + 2000 ≤ t := by
  have key : ∀ fuel time attempt t' c',
      runPolls doc url fuel time attempt = some (t', c') →
      doc t' = some c' ∧ time ≤ t' := by
    intro fuel
    induction fuel with
    | zero =>
      intro time attempt t' c' hrun
      simp [runPolls] at hrun
    | succ f ih =>
      intro time attempt t' c' hrun
      cases hdoc : doc time with
      | none =>
        simp only [runPolls, hdoc] at hrun
        by_cases ha : attempt < 25
        · rw [if_pos ha] at hrun
          obtain ⟨h1, h2⟩ := ih (time + 200) (attempt + 1) t' c' hrun
          exact ⟨h1, by omega⟩
        · rw [if_neg ha] at hrun
          exact absurd hrun (by simp)
      | some ctx =>
        simp only [runPolls, hdoc] at hrun
        by_cases hh : isHomepageUrl url
        · rw [if_pos hh] at hrun
          simp only [Option.some.injEq, Prod.mk.injEq] at hrun
          obtain ⟨rfl, rfl⟩ := hrun
          exact ⟨hdoc, Nat.le_refl _⟩
        · rw [if_neg hh] at hrun
          by_cases hw : ctx.app = "youtube" ∧ strIncludes url "watch?v=" = true
          · rw [if_pos hw] at hrun
            by_cases hacc : hasRealTitle ctx.title = true ∨ 25 ≤ attempt
            · rw [if_pos hacc] at hrun
              simp only [Option.some.injEq, Prod.mk.injEq] at hrun
              obtain ⟨rfl, rfl⟩ := hrun
              exact ⟨hdoc, Nat.le_refl _⟩
            · rw [if_neg hacc] at hrun
              obtain ⟨h1, h2⟩ := ih (time + 200) (attempt + 1) t' c' hrun
              exact ⟨h1, by omega⟩
          · rw [if_neg hw] at hrun
            simp only [Option.some.injEq, Prod.mk.injEq] at hrun
            obtain ⟨rfl, rfl⟩ := hrun
            exact ⟨hdoc, Nat.le_refl _⟩
  obtain ⟨h1, h2⟩ := key 25 (trig + 2000) 1 t c h
  exact ⟨h1, by omega⟩

/-- Witness for `cycle_commit_reads_live_document` on the homepage
cycle triggered at 0 ms. -/
theorem cycle_commit_reads_live_document_witness :
    docHome 2000 = some homeCtx ∧ 0 + 2000 ≤ 2000 :=
  cycle_commit_reads_live_document docHome homeUrl 0 2000 homeCtx (by decide)

/-- A watch-page URL for the stabilization scenarios. -/
def watchUrl : String := "https://www.youtube.com/watch?v=abc"

/-- The context `detectYouTubeContext` builds on a watch page once it
has extracted the given title. -/
def watchCtx (title : String) : Context :=
  { app := "youtube", title := title, url := watchUrl,
    key := String.append "youtube:" title }

/-- A watch-page document whose extracted title on poll `n` (the poll
at time `2000 + 200 * (n - 1)`) is `titles n`. -/
def watchDoc (titles : Nat → String) : Nat → Option Context :=
  fun t => some (watchCtx (titles ((t - 2000) / 200 + 1)))

theorem watchUrl_not_home : ¬ isHomepageUrl watchUrl := by decide

theorem watchUrl_has_watch : strIncludes watchUrl "watch?v=" = true := by
  decide

/-- On a watch page, a poll that sees a non-real title with attempts
remaining retries 200 ms later. -/
theorem runPolls_watch_retry (doc : Nat → Option Context)
    (fuel time attempt : Nat) (ctx : Context) (hdoc : doc time = some ctx)
    (happ : ctx.app = "youtube") (hreal : hasRealTitle ctx.title = false)
    (hatt : attempt < 25) :
    runPolls doc watchUrl (fuel + 1) time attempt
      = runPolls doc watchUrl fuel (time + 200) (attempt + 1) := by
  simp only [runPolls, hdoc]
  rw [if_neg watchUrl_not_home, if_pos ⟨happ, watchUrl_has_watch⟩,
      if_neg (by simp [hreal]; omega)]

/-- On a watch page, a poll that sees a real title — or has exhausted
the attempt budget — commits what it extracted. -/
theorem runPolls_watch_commit (doc : Nat → Option Context)
    (fuel time attempt : Nat) (ctx : Context) (hdoc : doc time = some ctx)
    (happ : ctx.app = "youtube")
    (hacc : hasRealTitle ctx.title = true ∨ 25 ≤ attempt) :
    runPolls doc watchUrl (fuel + 1) time attempt = some (time, ctx) := by
  simp only [runPolls, hdoc]
  rw [if_neg watchUrl_not_home, if_pos ⟨happ, watchUrl_has_watch⟩,
      if_pos hacc]

/-- Iterated form of `runPolls_watch_retry`: `k` consecutive non-real
polls advance the chain by `k` steps. -/
theorem runPolls_watch_retry_chain (doc : Nat → Option Context) :
    ∀ (k fuel time attempt : Nat),
      (∀ j, j < k → ∃ ctx, doc (time + 200 * j) = some ctx ∧
        ctx.app = "youtube" ∧ hasRealTitle ctx.title = false) →
      attempt + k ≤ 25 →
      runPolls doc watchUrl (fuel + k) time attempt
        = runPolls doc watchUrl fuel (time + 200 * k) (attempt + k) := by
  intro k
  induction k with
  | zero =>
    intro fuel time attempt h hle
    simp
  | succ n ih =>
    intro fuel time attempt h hle
    obtain ⟨ctx, hdoc, happ, hreal⟩ := h 0 (by omega)
    rw [show time + 200 * 0 = time from by omega] at hdoc
    have hstep := runPolls_watch_retry doc (fuel + n) time attempt ctx hdoc
      happ hreal (by omega)
    rw [show fuel + (n + 1) = (fuel + n) + 1 from by omega, hstep]
    have hrest := ih fuel (time + 200) (attempt + 1)
      (fun j hj => by
        obtain ⟨ctx', hd, ha, hr⟩ := h (j + 1) (by omega)
        refine ⟨ctx', ?_, ha, hr⟩
        rw [show time + 200 + 200 * j = time + 200 * (j + 1) from by ring]
        exact hd)
      (by omega)
    rw [hrest, show time + 200 + 200 * n = time + 200 * (n + 1) from by ring,
        show attempt + 1 + n = attempt + (n + 1) from by omega]

/-- The extraction `watchDoc` delivers at the time of poll `n + 1`. -/
theorem watchDoc_at (titles : Nat → String) (n : Nat) :
    watchDoc titles (2000 + 200 * n) = some (watchCtx (titles (n + 1))) := by
  unfold watchDoc
  have h : (2000 + 200 * n - 2000) / 200 + 1 = n + 1 := by
    have h1 : 2000 + 200 * n - 2000 = 200 * n := by omega
    rw [h1, Nat.mul_div_cancel_left n (by norm_num)]
  rw [h]

/-- A commit delivered on a watch page strictly before the final
attempt's poll time can only carry a real title. -/
theorem watch_early_aux (doc : Nat → Option Context) :
    ∀ fuel time attempt t c,
      fuel + attempt = 26 →
      runPolls doc watchUrl fuel time attempt = some (t, c) →
      c.app = "youtube" → t < time + 200 * (fuel - 1) →
      hasRealTitle c.title = true := by
  intro fuel
  induction fuel with
  | zero =>
    intro time attempt t c hfa hrun
    simp [runPolls] at hrun
  | succ f ih =>
    intro time attempt t c hfa hrun happ hlt
    cases hdoc : doc time with
    | none =>
      simp only [runPolls, hdoc] at hrun
      by_cases ha : attempt < 25
      · rw [if_pos ha] at hrun
        exact ih (time + 200) (attempt + 1) t c (by omega) hrun happ (by omega)
      · rw [if_neg ha] at hrun
        exact absurd hrun (by simp)
    | some ctx =>
      simp only [runPolls, hdoc] at hrun
      rw [if_neg watchUrl_not_home] at hrun
      by_cases hw : ctx.app = "youtube" ∧ strIncludes watchUrl "watch?v=" = true
      · rw [if_pos hw] at hrun
        by_cases hacc : hasRealTitle ctx.title = true ∨ 25 ≤ attempt
        · rw [if_pos hacc] at hrun
          simp only [Option.some.injEq, Prod.mk.injEq] at hrun
          obtain ⟨rfl, rfl⟩ := hrun
          rcases hacc with hreal | h25
          · exact hreal
          · exfalso
            omega
        · rw [if_neg hacc] at hrun
          exact ih (time + 200) (attempt + 1) t c (by omega) hrun happ (by omega)
      · rw [if_neg hw] at hrun
        simp only [Option.some.injEq, Prod.mk.injEq] at hrun
        obtain ⟨rfl, rfl⟩ := hrun
        exact absurd ⟨happ, watchUrl_has_watch⟩ hw

/-- When no poll ever sees a real title, the chain runs its full budget
and commits the final attempt's extraction. -/
theorem watch_exhaust_aux (doc : Nat → Option Context)
    (cdoc : Nat → Context) (hdoc : ∀ u, doc u = some (cdoc u))
    (happ : ∀ u, (cdoc u).app = "youtube")
    (hreal : ∀ u, hasRealTitle (cdoc u).title = false) :
    ∀ fuel time attempt, fuel + attempt = 26 → 1 ≤ fuel →
      runPolls doc watchUrl fuel time attempt
        = some (time + 200 * (fuel - 1), cdoc (time + 200 * (fuel - 1))) := by
  intro fuel
  induction fuel with
  | zero =>
    intro time attempt hfa h1
    exact absurd h1 (by norm_num)
  | succ f ih =>
    intro time attempt hfa _
    rcases Nat.eq_zero_or_pos f with hf | hf
    · subst hf
      have hc := runPolls_watch_commit doc 0 time attempt (cdoc time)
        (hdoc time) (happ time) (Or.inr (by omega))
      rw [hc]
      norm_num
    · have hstep := runPolls_watch_retry doc f time attempt (cdoc time)
        (hdoc time) (happ time) (hreal time) (by omega)
      rw [hstep, ih (time + 200) (attempt + 1) (by omega) (by omega)]
      rw [show time + 200 + 200 * (f - 1) = time + 200 * (f + 1 - 1) from by
        omega]

/-- Claim C5: on a watch page, (1) a run whose extraction yields the
bare `"YouTube"` on each of the first 10 polls and `"Real Title"` on
poll 11 commits nothing before poll 11 (the single commit happens at
poll 11's time, 4000 ms) and commits exactly the `"Real Title"`
context; (2) any commit delivered strictly before the 25th attempt's
poll time carries a title passing `hasRealTitle` (non-empty, not the
bare site name, not the loading placeholder, not a raw URL fragment);
(3) if no poll ever sees a real title, the budget is exhausted and the
last extracted context is committed anyway. -/
theorem watch_stabilization_commits_real_title :
    (∀ titles : Nat → String,
      (∀ i, 1 ≤ i → i ≤ 10 → titles i = "YouTube") →
      titles 11 = "Real Title" →
      cycleCommit (watchDoc titles) watchUrl 0
        = some (4000, watchCtx "Real Title")) ∧
    (∀ (doc : Nat → Option Context) (trig t : Nat) (c : Context),
      cycleCommit doc watchUrl trig = some (t, c) →
      c.app = "youtube" → t < trig + 6800 →
      hasRealTitle c.title = true) ∧
    (∀ (doc : Nat → Option Context) (cdoc : Nat → Context) (trig : Nat),
      (∀ u, doc u = some (cdoc u)) →
      (∀ u, (cdoc u).app = "youtube") →
      (∀ u, hasRealTitle (cdoc u).title = false) →
      cycleCommit doc watchUrl trig
        = some (trig + 6800, cdoc (trig + 6800))) := by
  refine ⟨?_, ?_, ?_⟩
  · intro titles h1 h2
    unfold cycleCommit
    have hchain := runPolls_watch_retry_chain (watchDoc titles) 10 15
      (0 + 2000) 1
      (fun j hj =>
        ⟨watchCtx (titles (j + 1)), by
          rw [show (0 + 2000 : Nat) + 200 * j = 2000 + 200 * j from by omega]
          exact watchDoc_at titles j, rfl, by
          rw [show (watchCtx (titles (j + 1))).title = titles (j + 1) from
            rfl, h1 (j + 1) (by omega) (by omega)]
          decide⟩)
      (by omega)
    rw [show (25 : Nat) = 15 + 10 from rfl, hchain]
    have hdoc11 : watchDoc titles (0 + 2000 + 200 * 10)
        = some (watchCtx (titles 11)) := by
      rw [show (0 + 2000 + 200 * 10 : Nat) = 2000 + 200 * 10 from by omega]
      exact watchDoc_at titles 10
    have hcommit := runPolls_watch_commit (watchDoc titles) 14
      (0 + 2000 + 200 * 10) (1 + 10) (watchCtx (titles 11)) hdoc11 rfl
      (Or.inl (by
        rw [show (watchCtx (titles 11)).title = titles 11 from rfl, h2]
        decide))
    rw [show (15 : Nat) = 14 + 1 from rfl, hcommit, h2]
  · intro doc trig t c h happ hlt
    exact watch_early_aux doc 25 (trig + 2000) 1 t c (by norm_num) h happ
      (by omega)
  · intro doc cdoc trig hdoc happ hreal
    unfold cycleCommit
    rw [watch_exhaust_aux doc cdoc hdoc happ hreal 25 (trig + 2000) 1
      (by norm_num) (by norm_num)]

/-- The concrete scenario title sequence: bare `"YouTube"` on polls
1 through 10, `"Real Title"` from poll 11 on. -/
def scenTitles : Nat → String :=
  fun n => if n ≤ 10 then "YouTube" else "Real Title"

/-- Witness for `watch_stabilization_commits_real_title` on the
concrete scenario titles. -/
theorem watch_stabilization_commits_real_title_witness :
    cycleCommit (watchDoc scenTitles) watchUrl 0
      = some (4000, watchCtx "Real Title") :=
  watch_stabilization_commits_real_title.1 scenTitles
    (fun i _ hle => by simp [scenTitles, hle])
    (by decide)
